import Mathlib

/-!
Verification of the CRUD data service (`BACKEND/src/index.js`) and the client
application (`FRONTEND/src/App.jsx`) of the sample full-stack project.

The backend is embedded as pure functions from a database state (plus an
injected upstream-error outcome) to an HTTP response and a new database state.
The frontend mutation handlers are embedded as event traces recording, in
program order, the API calls and React state updates they perform on their
success paths.
-/

namespace CrudApp

/-- One row of the managed `data` table: `id` (serial primary key),
`name` (text), `created_at` (timestamp, modelled as a natural number). -/
structure Record where
  id : Nat
  name : String
  created_at : Nat
deriving Repr, DecidableEq

/-- The external database state: the stored rows, the next serial `id` the
database will assign on insert, and the timestamp it will stamp as
`created_at` on insert. -/
structure Db where
  rows : List Record
  nextId : Nat
  now : Nat
deriving Repr, DecidableEq

/-- Ascending order on the `id` column, as requested by
`.order("id", { ascending: true })` in the GET /api/data handler. -/
def idLe (a b : Record) : Prop := a.id ≤ b.id

instance : DecidableRel idLe := fun a b => inferInstanceAs (Decidable (a.id ≤ b.id))

instance : IsTotal Record idLe := ⟨fun a b => Nat.le_total a.id b.id⟩

instance : IsTrans Record idLe := ⟨fun _ _ _ h h' => Nat.le_trans h h'⟩

/-- The database's `ORDER BY id ASC`, applied by the select in the list
handler. -/
def sortById (l : List Record) : List Record := l.insertionSort idLe

/-- JavaScript truthiness of `req.body.name` as tested by `if (!name)` in the
POST and PUT handlers: `undefined`/missing is falsy, and among strings exactly
the empty string is falsy. -/
def jsTruthy : Option String → Bool
  | none => false
  | some s => s != ""

/-- Outcome of one HTTP request handler: the transport status code, the JSON
body fields (`status`, optional `message`, optional `data`), the database
state after the request, and whether a database call was issued at all. -/
structure ApiResult (α : Type) where
  httpStatus : Nat
  status : String
  message : Option String
  data : Option α
  db : Db
  dbCalled : Bool
deriving Repr

/-- GET /api/data: one select ordered by `id` ascending; on database error,
500 with the upstream message; otherwise 200 with the sorted rows. -/
def getData (db : Db) (dbErr : Option String) : ApiResult (List Record) :=
  match dbErr with
  | some m =>
    { httpStatus := 500, status := "error", message := some m, data := none,
      db := db, dbCalled := true }
  | none =>
    { httpStatus := 200, status := "ok", message := none,
      data := some (sortById db.rows), db := db, dbCalled := true }

/-- POST /api/data: rejects a falsy `name` with 400 before any database call;
otherwise inserts `{ name }` (the database assigns `id := nextId` and
`created_at := now`) and returns `data[0]`, the created record. -/
def postData (db : Db) (name : Option String) (dbErr : Option String) :
    ApiResult Record :=
  if !jsTruthy name then
    { httpStatus := 400, status := "error", message := some "Name is required",
      data := none, db := db, dbCalled := false }
  else
    match dbErr with
    | some m =>
      { httpStatus := 500, status := "error", message := some m, data := none,
        db := db, dbCalled := true }
    | none =>
      let newRec : Record :=
        { id := db.nextId, name := name.getD "", created_at := db.now }
      { httpStatus := 200, status := "ok", message := none, data := some newRec,
        db := { rows := db.rows ++ [newRec], nextId := db.nextId + 1,
                now := db.now },
        dbCalled := true }

/-- PUT /api/data/:id: rejects a falsy `name` with 400 before any database
call; otherwise updates the `name` of every row whose `id` matches, and the
trailing `.select()` returns the updated matching rows, of which the handler
sends `data[0]` (absent when no row matched). -/
def putData (db : Db) (id : Nat) (name : Option String) (dbErr : Option String) :
    ApiResult Record :=
  if !jsTruthy name then
    { httpStatus := 400, status := "error", message := some "Name is required",
      data := none, db := db, dbCalled := false }
  else
    match dbErr with
    | some m =>
      { httpStatus := 500, status := "error", message := some m, data := none,
        db := db, dbCalled := true }
    | none =>
      let updated := db.rows.map
        (fun r => if r.id = id then { r with name := name.getD "" } else r)
      let matched := updated.filter (fun r => r.id == id)
      { httpStatus := 200, status := "ok", message := none,
        data := matched.head?,
        db := { db with rows := updated }, dbCalled := true }

/-- DELETE /api/data/:id: one delete matching on `id`; on database error, 500
with the upstream message; otherwise 200 with "Deleted successfully" whether
or not any row matched. -/
def deleteData (db : Db) (id : Nat) (dbErr : Option String) : ApiResult Unit :=
  match dbErr with
  | some m =>
    { httpStatus := 500, status := "error", message := some m, data := none,
      db := db, dbCalled := true }
  | none =>
    { httpStatus := 200, status := "ok", message := some "Deleted successfully",
      data := none,
      db := { db with rows := db.rows.filter (fun r => r.id != id) },
      dbCalled := true }

/-- What the database call inside GET /api/health did: returned cleanly,
returned an error object, or threw. -/
inductive DbOutcome where
  | success
  | dbError (msg : String)
  | threw (msg : String)
deriving Repr, DecidableEq

/-- Response of the health check (always JSON with a `status` and `message`). -/
structure HealthResp where
  httpStatus : Nat
  status : String
  message : String
deriving Repr, DecidableEq

/-- GET /api/health: a head-only count select against the `data` table; every
outcome, including a database error or a thrown exception, is folded into a
200 response with `status: "ok"`, the outcome showing only in the message. -/
def healthCheck : DbOutcome → HealthResp
  | .success => ⟨200, "ok", "Backend and Supabase connected"⟩
  | .dbError m => ⟨200, "ok", "Backend connected (DB: " ++ m ++ ")"⟩
  | .threw _ => ⟨200, "ok", "Backend running"⟩

/-- JavaScript `String.prototype.trim()` as called by the client's
validation: strip whitespace from both ends of the string. -/
def jsTrim (s : String) : String :=
  ⟨((s.data.dropWhile Char.isWhitespace).reverse.dropWhile
      Char.isWhitespace).reverse⟩

/-- The `actionLoading` marker values used by the client: the sentinel
`'add'` for the add form, or a record id for a row action. -/
inductive ActionKey where
  | addKey
  | rowId (id : Nat)
deriving Repr, DecidableEq

/-- One observable step of a client mutation handler, in program order: an
API call, a React state update, or a blocking alert. -/
inductive UiEvent where
  | apiPost (name : String)
  | apiPut (id : Nat) (name : String)
  | apiDelete (id : Nat)
  | setNewName (v : String)
  | setShowAddForm (b : Bool)
  | setEditingId (v : Option Nat)
  | setEditValue (v : String)
  | fetchData
  | setActionLoading (v : Option ActionKey)
  | alert (msg : String)
deriving Repr, DecidableEq

/-- `handleAdd` from App.jsx on its success path (the POST and the reload both
succeed), as the ordered list of steps it performs: reject a blank trimmed
name with an alert and no network call, else set the action marker, POST the
untrimmed `newName`, clear the add form state, await `fetchData`, and clear
the action marker in the `finally` block. -/
def handleAdd (newName : String) : List UiEvent :=
  if jsTrim newName = "" then
    [.alert "Please enter a name"]
  else
    [.setActionLoading (some .addKey), .apiPost newName,
     .setNewName "", .setShowAddForm false,
     .fetchData, .setActionLoading none]

/-- `handleSave` from App.jsx on its success path: reject a blank trimmed
edit value with an alert, else set the action marker, PUT the untrimmed
`editValue`, clear the edit state, await `fetchData`, and clear the action
marker. -/
def handleSave (id : Nat) (editValue : String) : List UiEvent :=
  if jsTrim editValue = "" then
    [.alert "Please enter a name"]
  else
    [.setActionLoading (some (.rowId id)), .apiPut id editValue,
     .setEditingId none, .setEditValue "",
     .fetchData, .setActionLoading none]

/-- `handleDelete` from App.jsx on its success path: do nothing if the
confirmation prompt is declined, else set the action marker, DELETE, await
`fetchData`, and clear the action marker. -/
def handleDelete (id : Nat) (confirmed : Bool) : List UiEvent :=
  if !confirmed then
    []
  else
    [.setActionLoading (some (.rowId id)), .apiDelete id,
     .fetchData, .setActionLoading none]

/-- Whether an event clears a piece of the transient UI state named by the
spec: the edit-in-progress id, the edit text, or the add-form text and
visibility. -/
def isTransientClear : UiEvent → Bool
  | .setNewName v => v == ""
  | .setShowAddForm b => b == false
  | .setEditingId v => v == none
  | .setEditValue v => v == ""
  | _ => false

/-- `true` when some transient-state clear occurs in the trace strictly
before the first collection reload (or with no reload at all). -/
def clearedBeforeReload : List UiEvent → Bool
  | [] => false
  | e :: rest =>
    if e = .fetchData then false
    else if isTransientClear e then true
    else clearedBeforeReload rest

/-- The `name` a run of `handleAdd` transmits in its POST body, if any. -/
def sentName (newName : String) : Option String :=
  (handleAdd newName).findSome? (fun e =>
    match e with
    | .apiPost n => some n
    | _ => none)

/-- Claim C1 as stated is false: in `handleAdd` the transient add-form state
(`setNewName ""`, `setShowAddForm false`) is cleared strictly before the
collection reload (`fetchData`), witnessed on the concrete input "Widget". -/
theorem C1_counterexample :
    ¬ clearedBeforeReload (handleAdd "Widget") = false := by decide

/-- Claim C1 (amended): for every successful create or update, the handler
performs the mutation request first, then clears the transient UI state
(edit-in-progress id, edit text, add-form text/visibility), and only then
awaits the full collection reload; a successful delete touches no transient
edit/add-form state and the reload precedes only the clearing of the
action-in-progress marker. -/
theorem C1_mutate_clear_reload (s : String) (hs : jsTrim s ≠ "")
    (id : Nat) (v : String) (hv : jsTrim v ≠ "") :
    handleAdd s =
      [.setActionLoading (some .addKey), .apiPost s,
       .setNewName "", .setShowAddForm false,
       .fetchData, .setActionLoading none] ∧
    handleSave id v =
      [.setActionLoading (some (.rowId id)), .apiPut id v,
       .setEditingId none, .setEditValue "",
       .fetchData, .setActionLoading none] ∧
    handleDelete id true =
      [.setActionLoading (some (.rowId id)), .apiDelete id,
       .fetchData, .setActionLoading none] := by
  simp [handleAdd, handleSave, handleDelete, hs, hv]

/-- Witness for C1_mutate_clear_reload at name "Widget", id 1, edit value
"Gadget". -/
theorem C1_mutate_clear_reload_witness :
    jsTrim "Widget" ≠ "" ∧ jsTrim "Gadget" ≠ "" ∧
    handleAdd "Widget" =
      [.setActionLoading (some .addKey), .apiPost "Widget",
       .setNewName "", .setShowAddForm false,
       .fetchData, .setActionLoading none] :=
  ⟨by decide, by decide,
   (C1_mutate_clear_reload "Widget" (by decide) 1 "Gadget" (by decide)).1⟩

/-- Claim C2: a create or update whose body `name` is missing or the empty
string is answered 400 with status "error", issues no database call, and
leaves the stored collection unchanged. -/
theorem C2_validation_rejects (db : Db) (name : Option String)
    (dbErr : Option String) (id : Nat)
    (h : name = none ∨ name = some "") :
    (postData db name dbErr).httpStatus = 400 ∧
    (postData db name dbErr).status = "error" ∧
    (postData db name dbErr).dbCalled = false ∧
    (postData db name dbErr).db = db ∧
    (putData db id name dbErr).httpStatus = 400 ∧
    (putData db id name dbErr).status = "error" ∧
    (putData db id name dbErr).dbCalled = false ∧
    (putData db id name dbErr).db = db := by
  rcases h with h | h <;> subst h <;> simp [postData, putData, jsTruthy]

/-- Witness for C2_validation_rejects with an empty name on a one-row
database. -/
theorem C2_validation_rejects_witness :
    (some "" = none ∨ some "" = some "") ∧
    (postData ⟨[⟨1, "a", 0⟩], 2, 5⟩ (some "") none).httpStatus = 400 ∧
    (postData ⟨[⟨1, "a", 0⟩], 2, 5⟩ (some "") none).db = ⟨[⟨1, "a", 0⟩], 2, 5⟩ :=
  ⟨Or.inr rfl,
   (C2_validation_rejects ⟨[⟨1, "a", 0⟩], 2, 5⟩ (some "") none 1 (Or.inr rfl)).1,
   (C2_validation_rejects ⟨[⟨1, "a", 0⟩], 2, 5⟩ (some "") none 1 (Or.inr rfl)).2.2.2.1⟩

/-- Claim C3: the health check answers HTTP 200 with status "ok" on every
outcome of the database call, including an error or a thrown exception; a
database error appears only in the message text. -/
theorem C3_health_always_ok (o : DbOutcome) (m : String) :
    (healthCheck o).httpStatus = 200 ∧ (healthCheck o).status = "ok" ∧
    (healthCheck (.dbError m)).message = "Backend connected (DB: " ++ m ++ ")" := by
  cases o <;> simp [healthCheck]

/-- Claim C4: the data array of every successful list response is sorted by
`id` in ascending order, for every database state. -/
theorem C4_list_sorted (db : Db) (dbErr : Option String) (l : List Record)
    (h : (getData db dbErr).data = some l) : l.Sorted idLe := by
  cases dbErr with
  | some m => simp [getData] at h
  | none =>
    simp only [getData, Option.some.injEq] at h
    exact h ▸ List.sorted_insertionSort idLe db.rows

/-- Witness for C4_list_sorted on a database whose rows were inserted out of
`id` order. -/
theorem C4_list_sorted_witness :
    (getData ⟨[⟨2, "b", 0⟩, ⟨1, "a", 0⟩], 3, 5⟩ none).data
      = some [⟨1, "a", 0⟩, ⟨2, "b", 0⟩] ∧
    ([⟨1, "a", 0⟩, ⟨2, "b", 0⟩] : List Record).Sorted idLe :=
  ⟨by decide,
   C4_list_sorted ⟨[⟨2, "b", 0⟩, ⟨1, "a", 0⟩], 3, 5⟩ none
     [⟨1, "a", 0⟩, ⟨2, "b", 0⟩] (by decide)⟩

/-- Claim C5: delete is idempotent — two successive deletes of the same `id`
(in particular of an absent `id`) both answer 200 with status "ok" and
message "Deleted successfully", and the second leaves the collection
unchanged. -/
theorem C5_delete_idempotent (db : Db) (id : Nat) :
    (deleteData db id none).httpStatus = 200 ∧
    (deleteData db id none).status = "ok" ∧
    (deleteData db id none).message = some "Deleted successfully" ∧
    (deleteData (deleteData db id none).db id none).httpStatus = 200 ∧
    (deleteData (deleteData db id none).db id none).status = "ok" ∧
    (deleteData (deleteData db id none).db id none).message
      = some "Deleted successfully" ∧
    (deleteData (deleteData db id none).db id none).db
      = (deleteData db id none).db := by
  refine ⟨rfl, rfl, rfl, rfl, rfl, rfl, ?_⟩
  simp [deleteData, List.filter_filter]

/-- Claim C6: create with name x, then update the returned id with name y,
then list: the list shows exactly one record with that id, its name is y,
and its created_at is the value assigned at creation (the update writes only
the name field). -/
theorem C6_round_trip (db : Db) (x y : String) (hx : x ≠ "") (hy : y ≠ "")
    (hwf : ∀ r ∈ db.rows, r.id < db.nextId) :
    (postData db (some x) none).status = "ok" ∧
    (postData db (some x) none).data = some ⟨db.nextId, x, db.now⟩ ∧
    (putData (postData db (some x) none).db db.nextId (some y) none).status
      = "ok" ∧
    (putData (postData db (some x) none).db db.nextId (some y) none).data
      = some ⟨db.nextId, y, db.now⟩ ∧
    ∃ l,
      (getData
        (putData (postData db (some x) none).db db.nextId (some y) none).db
        none).data = some l ∧
      l.filter (fun r => r.id == db.nextId) = [⟨db.nextId, y, db.now⟩] ∧
      l.countP (fun r => r.id == db.nextId) = 1 := by
  have hpost : postData db (some x) none =
      { httpStatus := 200, status := "ok", message := none,
        data := some ⟨db.nextId, x, db.now⟩,
        db := { rows := db.rows ++ [⟨db.nextId, x, db.now⟩],
                nextId := db.nextId + 1, now := db.now },
        dbCalled := true } := by
    simp [postData, jsTruthy, hx]
  have hmapfilter :
      ((db.rows.map (fun r =>
          if r.id = db.nextId then { r with name := y } else r)).filter
        (fun r => r.id == db.nextId)) = [] := by
    rw [List.filter_eq_nil_iff]
    intro r' hr'
    rcases List.mem_map.mp hr' with ⟨r, hr, hmap⟩
    have hlt := hwf r hr
    subst hmap
    by_cases hc : r.id = db.nextId
    · omega
    · simp [hc]
  have hput : putData (postData db (some x) none).db db.nextId (some y) none =
      { httpStatus := 200, status := "ok", message := none,
        data := some ⟨db.nextId, y, db.now⟩,
        db := { rows := (db.rows.map (fun r =>
                  if r.id = db.nextId then { r with name := y } else r))
                  ++ [⟨db.nextId, y, db.now⟩],
                nextId := db.nextId + 1, now := db.now },
        dbCalled := true } := by
    rw [hpost]
    simp [putData, jsTruthy, hy, hmapfilter]
  have hfilt :
      (sortById ((db.rows.map (fun r =>
          if r.id = db.nextId then { r with name := y } else r))
        ++ [⟨db.nextId, y, db.now⟩])).filter (fun r => r.id == db.nextId)
      = [⟨db.nextId, y, db.now⟩] := by
    have hperm := (List.perm_insertionSort idLe
      ((db.rows.map (fun r =>
          if r.id = db.nextId then { r with name := y } else r))
        ++ [⟨db.nextId, y, db.now⟩])).filter (fun r => r.id == db.nextId)
    rw [List.filter_append, hmapfilter] at hperm
    simp only [List.nil_append] at hperm
    exact List.perm_singleton.mp (by simpa [sortById] using hperm)
  refine ⟨by rw [hpost], by rw [hpost], by rw [hput], by rw [hput], ?_⟩
  rw [hput]
  refine ⟨_, rfl, by simpa [getData] using hfilt, ?_⟩
  rw [List.countP_eq_length_filter]
  simp only [getData]
  rw [hfilt]
  rfl

/-- Witness for C6_round_trip: create "X" then rename to "Y" on a database
holding one prior row. -/
theorem C6_round_trip_witness :
    ("X" ≠ "") ∧ ("Y" ≠ "") ∧
    (∀ r ∈ ([⟨1, "a", 3⟩] : List Record), r.id < 2) ∧
    (∃ l,
      (getData
        (putData (postData ⟨[⟨1, "a", 3⟩], 2, 7⟩ (some "X") none).db 2
          (some "Y") none).db none).data = some l ∧
      l.filter (fun r => r.id == 2) = [⟨2, "Y", 7⟩] ∧
      l.countP (fun r => r.id == 2) = 1) :=
  ⟨by decide, by decide, by decide,
   (C6_round_trip ⟨[⟨1, "a", 3⟩], 2, 7⟩ "X" "Y" (by decide) (by decide)
     (by decide)).2.2.2.2⟩


/-- Claim C7: whenever the database call of a list, create, update, or delete
returns an error, the response is HTTP 500 with status "error" and the
upstream message passed through verbatim. -/
theorem C7_db_error_500 (db : Db) (m : String) (id : Nat)
    (name : Option String) (h : jsTruthy name = true) :
    (getData db (some m)).httpStatus = 500 ∧
    (getData db (some m)).status = "error" ∧
    (getData db (some m)).message = some m ∧
    (postData db name (some m)).httpStatus = 500 ∧
    (postData db name (some m)).status = "error" ∧
    (postData db name (some m)).message = some m ∧
    (putData db id name (some m)).httpStatus = 500 ∧
    (putData db id name (some m)).status = "error" ∧
    (putData db id name (some m)).message = some m ∧
    (deleteData db id (some m)).httpStatus = 500 ∧
    (deleteData db id (some m)).status = "error" ∧
    (deleteData db id (some m)).message = some m := by
  simp [getData, postData, putData, deleteData, h]

/-- Witness for C7_db_error_500 with upstream message "boom" and name
"Widget". -/
theorem C7_db_error_500_witness :
    jsTruthy (some "Widget") = true ∧
    (postData ⟨[], 1, 0⟩ (some "Widget") (some "boom")).message = some "boom" :=
  ⟨by decide,
   (C7_db_error_500 ⟨[], 1, 0⟩ "boom" 1 (some "Widget") (by decide)).2.2.2.2.2.1⟩

/-- Claim C8: an update with a non-empty name targeting an `id` absent from
the collection, with no database error, answers 200 with status "ok" and no
record in the `data` field. -/
theorem C8_update_missing_id (db : Db) (id : Nat) (name : String)
    (hn : name ≠ "") (habs : ∀ r ∈ db.rows, r.id ≠ id) :
    (putData db id (some name) none).httpStatus = 200 ∧
    (putData db id (some name) none).status = "ok" ∧
    (putData db id (some name) none).data = none := by
  have hfilter :
      (db.rows.map
        (fun r => if r.id = id then { r with name := name } else r)).filter
        (fun r => r.id == id) = [] := by
    rw [List.filter_eq_nil_iff]
    intro r' hr'
    rcases List.mem_map.mp hr' with ⟨r, hr, hmap⟩
    have hne := habs r hr
    subst hmap
    simp [hne]
  simp [putData, jsTruthy, hn, hfilter]

/-- Witness for C8_update_missing_id: updating id 3 on a database holding
only id 1. -/
theorem C8_update_missing_id_witness :
    "y" ≠ "" ∧ (∀ r ∈ ([⟨1, "a", 0⟩] : List Record), r.id ≠ 3) ∧
    (putData ⟨[⟨1, "a", 0⟩], 2, 5⟩ 3 (some "y") none).httpStatus = 200 ∧
    (putData ⟨[⟨1, "a", 0⟩], 2, 5⟩ 3 (some "y") none).data = none :=
  ⟨by decide, by decide,
   (C8_update_missing_id ⟨[⟨1, "a", 0⟩], 2, 5⟩ 3 "y" (by decide) (by decide)).1,
   (C8_update_missing_id ⟨[⟨1, "a", 0⟩], 2, 5⟩ 3 "y" (by decide) (by decide)).2.2⟩

/-- Claim C9: the `name` validation is a truthiness check, not a trimmed
check — a non-empty whitespace-only name passes validation on both create
and update, a database call is issued, and the create stores a record whose
name is exactly that whitespace. -/
theorem C9_whitespace_name_passes (db : Db) (id : Nat) (s : String)
    (hws : s.data.all Char.isWhitespace = true) (hne : s ≠ "") :
    (postData db (some s) none).dbCalled = true ∧
    (postData db (some s) none).httpStatus = 200 ∧
    (postData db (some s) none).db.rows
      = db.rows ++ [⟨db.nextId, s, db.now⟩] ∧
    (putData db id (some s) none).dbCalled = true ∧
    (putData db id (some s) none).httpStatus = 200 := by
  simp [postData, putData, jsTruthy, hne]

/-- Witness for C9_whitespace_name_passes at the single-space name " ". -/
theorem C9_whitespace_name_passes_witness :
    (" ".data.all Char.isWhitespace = true) ∧ " " ≠ "" ∧
    (postData ⟨[], 1, 0⟩ (some " ") none).db.rows = [⟨1, " ", 0⟩] :=
  ⟨by decide, by decide, by
    have h := (C9_whitespace_name_passes ⟨[], 1, 0⟩ 1 " " (by decide)
      (by decide)).2.2.1
    simpa using h⟩

/-- Claim C10: the client validates that the trimmed add-form input is
non-empty but transmits the original untrimmed text, so the backend stores
the name with its leading and trailing whitespace intact. -/
theorem C10_untrimmed_sent (s : String) (h : jsTrim s ≠ "") (db : Db) :
    sentName s = some s ∧
    (postData db (sentName s) none).db.rows
      = db.rows ++ [⟨db.nextId, s, db.now⟩] := by
  have hne : s ≠ "" := by
    intro he
    subst he
    exact h rfl
  have hsent : sentName s = some s := by
    simp [sentName, handleAdd, h, List.findSome?]
  refine ⟨hsent, ?_⟩
  rw [hsent]
  simp [postData, jsTruthy, hne]

/-- Witness for C10_untrimmed_sent at the padded name " abc ". -/
theorem C10_untrimmed_sent_witness :
    jsTrim " abc " ≠ "" ∧ sentName " abc " = some " abc " ∧
    (postData ⟨[], 1, 0⟩ (sentName " abc ") none).db.rows = [⟨1, " abc ", 0⟩] :=
  ⟨by decide,
   (C10_untrimmed_sent " abc " (by decide) ⟨[], 1, 0⟩).1, by
    have h := (C10_untrimmed_sent " abc " (by decide) (⟨[], 1, 0⟩ : Db)).2
    simpa using h⟩

end CrudApp
